import Mathlib

/-!
Verification development for the PPPoE identity-rotation decision engine
of `src/main.rs` (auto_pppoe_quota_manager).  The browser collaborators
(`get_total_use`, `password_change_router`, `which_pppoe_id_running`,
`send_notification`) are modelled as deterministic oracles; the decision
logic of `run_automation` and the credential parsing are translated
directly, with every collaborator invocation recorded as an event.
-/

namespace Pppoe

/-- A PPPoE identity: the router-side username together with its password,
one entry of the `pppoe_ids` vector of `run_automation`. -/
structure Identity where
  name : String
  secret : String
  deriving DecidableEq

/-- The three usage thresholds of `run_automation`
(`SWITCH_THRESHOLD`, `AVAILABLE_THRESHOLD`, `DISABLE_THRESHOLD`),
kept as parameters of the engine. -/
structure Thresholds where
  switch_threshold : Int
  available_threshold : Int
  disable_threshold : Int
  deriving DecidableEq

/-- The concrete threshold constants of `run_automation`:
`SWITCH_THRESHOLD = 10000`, `AVAILABLE_THRESHOLD = 10000`,
`DISABLE_THRESHOLD = 11000`. -/
def sourceThresholds : Thresholds := ⟨10000, 10000, 11000⟩

/-- The three-way outcome of `password_change_router`:
`Ok(true)`, `Ok(false)` or `Err(e)`. -/
inductive ApplyOutcome where
  | okTrue
  | okFalse
  | err (msg : String)
  deriving DecidableEq

/-- The rotation decision taken by one cycle. -/
inductive RotationDecision where
  | NoAction
  | SwitchTo (target : Identity)
  | Disable (current : Identity)
  | NoIdentityAvailable
  deriving DecidableEq

/-- Observable collaborator calls of one run: usage probes
(`get_total_use`), identity applications (`password_change_router`) and
desktop notifications (`send_notification`). -/
inductive Event where
  | probeCall (name : String) (secret : String)
  | applyCall (name : String) (secret : String)
  | notify (title : String) (body : String)
  deriving DecidableEq

/-- Deterministic oracles standing for the three browser collaborators:
`which_pppoe_id_running`, `get_total_use` and `password_change_router`. -/
structure Oracles where
  inspect : Except String String
  probe : String → String → Except String Int
  apply : String → String → ApplyOutcome

instance exceptDecEq {ε α : Type} [DecidableEq ε] [DecidableEq α] :
    DecidableEq (Except ε α) := fun a b =>
  match a, b with
  | .ok x, .ok y =>
    if h : x = y then .isTrue (by rw [h])
    else .isFalse (by intro hc; cases hc; exact h rfl)
  | .ok _, .error _ => .isFalse (by intro hc; cases hc)
  | .error _, .ok _ => .isFalse (by intro hc; cases hc)
  | .error x, .error y =>
    if h : x = y then .isTrue (by rw [h])
    else .isFalse (by intro hc; cases hc; exact h rfl)

/-- A single-quote character, used inside the notification format strings
of the source. -/
def squote : String := String.mk [Char.ofNat 39]

/-- Body of the "WiFi Status OK" notification of `run_automation`. -/
def statusOkBody (name : String) (usage : Int) : String :=
  "Current ID: " ++ squote ++ name ++ squote ++ "\nUsage: " ++ toString usage
    ++ " minutes (within limit)"

/-- Body of the "WiFi ID Switched" notification of `run_automation`. -/
def switchedOkBody (oldName newName : String) (usage : Int) : String :=
  "Successfully switched from " ++ squote ++ oldName ++ squote ++ " to "
    ++ squote ++ newName ++ squote ++ "\nOld usage: " ++ toString usage
    ++ " minutes"

/-- Body of the "WiFi Switch Failed" notification of `run_automation`. -/
def switchedFailBody (oldName newName : String) : String :=
  "Failed to switch from " ++ squote ++ oldName ++ squote ++ " to "
    ++ squote ++ newName ++ squote

/-- Body of the "WiFi Switch Error" notification of `run_automation`. -/
def switchErrBody (msg : String) : String :=
  "Error switching WiFi ID: " ++ msg

/-- Body of the "PPPoE Connection Disabled" notification of
`run_automation`. -/
def disabledOkBody (th : Thresholds) (name : String) (usage : Int) : String :=
  "All IDs exceeded " ++ toString th.available_threshold
    ++ " min limit.\nCurrent ID " ++ squote ++ name ++ squote ++ " has "
    ++ toString usage ++ " minutes (>" ++ toString th.disable_threshold
    ++ ").\nConnection disabled to prevent charges."

/-- Body of the "Failed to Disable PPPoE" notification of
`run_automation`. -/
def disableFailBody (usage : Int) : String :=
  "All IDs exceeded limit but couldn" ++ squote
    ++ "t disable connection.\nCurrent usage: " ++ toString usage ++ " minutes"

/-- Body of the "No WiFi IDs Available" notification of `run_automation`. -/
def noAvailableBody (th : Thresholds) (name : String) (usage : Int) : String :=
  "All PPPoE IDs have exceeded the " ++ toString th.available_threshold
    ++ " minute limit!\nCurrent ID: " ++ squote ++ name ++ squote ++ " - "
    ++ toString usage ++ " minutes (≤" ++ toString th.disable_threshold
    ++ " to avoid disconnect)"

/-- The dummy password used by `run_automation` to disable the PPPoE
connection. -/
def sentinelSecret : String := "DISABLED_EXCEEDED_LIMIT"

/-- Helper of `findActive`: the enumerated scan of the `for (index, ...)`
loop of `run_automation`, carrying the running position. -/
def findActiveAux (name : String) : List Identity → Nat → Option (Nat × Identity)
  | [], _ => none
  | c :: rest, i =>
    if c.name = name then some (i, c) else findActiveAux name rest (i + 1)

/-- Locate the identity reported by the router in the candidate vector:
the first candidate whose name equals `current_running_id`, together with
its position. -/
def findActive (ids : List Identity) (name : String) : Option (Nat × Identity) :=
  findActiveAux name ids 0

/-- Fallback value for the (unreachable) out-of-range list access: Rust
indexing into `pppoe_ids` panics out of range, but under the loop guard the
index `(index + 1 + checked_count) % len` is always in range. -/
def defaultIdentity : Identity := ⟨"", ""⟩

/-- One execution of the `while checked_count < pppoe_ids.len() - 1` search
loop of `run_automation`, fuelled structurally.  `checked` is
`checked_count`; the fuel is always instantiated with
`ids.length - 1 - checked`, which makes the fuel and the loop guard exit
together.  Returns the winning candidate (if any) and the candidates
probed, in probe order. -/
def searchLoop (ids : List Identity) (avail : Int)
    (probe : String → String → Except String Int) (index : Nat) :
    Nat → Nat → Option Identity × List Identity
  | _, 0 => (none, [])
  | checked, fuel + 1 =>
    if checked < ids.length - 1 then
      let cand := ids.getD ((index + 1 + checked) % ids.length) defaultIdentity
      match probe cand.name cand.secret with
      | .ok u =>
        if u ≤ avail then (some cand, [cand])
        else
          ((searchLoop ids avail probe index (checked + 1) fuel).1,
            cand :: (searchLoop ids avail probe index (checked + 1) fuel).2)
      | .error _ =>
        ((searchLoop ids avail probe index (checked + 1) fuel).1,
          cand :: (searchLoop ids avail probe index (checked + 1) fuel).2)
    else (none, [])

/-- The replacement search of `run_automation`, started at `checked_count`
value `checked` (the source starts it at `0`). -/
def searchFrom (ids : List Identity) (index : Nat) (avail : Int)
    (probe : String → String → Except String Int) (checked : Nat) :
    Option Identity × List Identity :=
  searchLoop ids avail probe index checked (ids.length - 1 - checked)

/-- First-fit replacement search, written from the specification words:
probe the candidates in the given order, skip a candidate whose probe
errors or whose usage exceeds the availability threshold, and stop at the
first candidate whose usage is at or below it.  Returns the winner and the
candidates probed, in order. -/
def firstFitSearch (cands : List Identity) (avail : Int)
    (probe : String → String → Except String Int) :
    Option Identity × List Identity :=
  match cands with
  | [] => (none, [])
  | c :: rest =>
    match probe c.name c.secret with
    | .ok u =>
      if u ≤ avail then (some c, [c])
      else
        ((firstFitSearch rest avail probe).1,
          c :: (firstFitSearch rest avail probe).2)
    | .error _ =>
      ((firstFitSearch rest avail probe).1,
        c :: (firstFitSearch rest avail probe).2)

/-- One decision cycle of `run_automation`, starting after the
`which_pppoe_id_running` call: locate the reported identity in the
candidate vector, probe its usage, apply the threshold policy, execute the
decision and notify.  Returns the propagated result (with the spec-level
`RotationDecision` labelling the branch taken, `none` when the reported
identity is not in the pool) and the ordered list of collaborator events. -/
def runCycle (ids : List Identity) (th : Thresholds) (o : Oracles)
    (activeName : String) :
    Except String (Option RotationDecision) × List Event :=
  match findActive ids activeName with
  | none => (.ok none, [])
  | some (index, active) =>
    match o.probe active.name active.secret with
    | .error e => (.error e, [Event.probeCall active.name active.secret])
    | .ok usage =>
      if usage > th.switch_threshold then
        match (searchFrom ids index th.available_threshold o.probe 0).1 with
        | some winner =>
          match o.apply winner.name winner.secret with
          | .okTrue =>
            (.ok (some (.SwitchTo winner)),
              Event.probeCall active.name active.secret
                :: (searchFrom ids index th.available_threshold o.probe 0).2.map
                    (fun c => Event.probeCall c.name c.secret)
                ++ [Event.applyCall winner.name winner.secret,
                  Event.notify "WiFi ID Switched ✓"
                    (switchedOkBody active.name winner.name usage)])
          | .okFalse =>
            (.ok (some (.SwitchTo winner)),
              Event.probeCall active.name active.secret
                :: (searchFrom ids index th.available_threshold o.probe 0).2.map
                    (fun c => Event.probeCall c.name c.secret)
                ++ [Event.applyCall winner.name winner.secret,
                  Event.notify "WiFi Switch Failed ✗"
                    (switchedFailBody active.name winner.name)])
          | .err msg =>
            (.ok (some (.SwitchTo winner)),
              Event.probeCall active.name active.secret
                :: (searchFrom ids index th.available_threshold o.probe 0).2.map
                    (fun c => Event.probeCall c.name c.secret)
                ++ [Event.applyCall winner.name winner.secret,
                  Event.notify "WiFi Switch Error" (switchErrBody msg)])
        | none =>
          if usage > th.disable_threshold then
            match o.apply active.name sentinelSecret with
            | .okTrue =>
              (.ok (some (.Disable active)),
                Event.probeCall active.name active.secret
                  :: (searchFrom ids index th.available_threshold o.probe 0).2.map
                      (fun c => Event.probeCall c.name c.secret)
                  ++ [Event.applyCall active.name sentinelSecret,
                    Event.notify "PPPoE Connection Disabled 🛑"
                      (disabledOkBody th active.name usage)])
            | _ =>
              (.ok (some (.Disable active)),
                Event.probeCall active.name active.secret
                  :: (searchFrom ids index th.available_threshold o.probe 0).2.map
                      (fun c => Event.probeCall c.name c.secret)
                  ++ [Event.applyCall active.name sentinelSecret,
                    Event.notify "Failed to Disable PPPoE ✗"
                      (disableFailBody usage)])
          else
            (.ok (some .NoIdentityAvailable),
              Event.probeCall active.name active.secret
                :: (searchFrom ids index th.available_threshold o.probe 0).2.map
                    (fun c => Event.probeCall c.name c.secret)
                ++ [Event.notify "No WiFi IDs Available ⚠"
                    (noAvailableBody th active.name usage)])
      else
        (.ok (some .NoAction),
          [Event.probeCall active.name active.secret,
            Event.notify "WiFi Status OK ✓" (statusOkBody active.name usage)])

/-- Split a character list at every occurrence of `sep`, as Rust
`str::split(char)` does on the string contents; never returns the empty
list. -/
def splitOnChar (sep : Char) : List Char → List (List Char)
  | [] => [[]]
  | x :: xs =>
    if x = sep then [] :: splitOnChar sep xs
    else
      match splitOnChar sep xs with
      | [] => [[x]]
      | y :: ys => (x :: y) :: ys

/-- Trim leading and trailing whitespace of a character list, as Rust
`str::trim` does. -/
def trimChars (cs : List Char) : List Char :=
  ((cs.dropWhile Char.isWhitespace).reverse.dropWhile Char.isWhitespace).reverse

/-- Insert a `name ↦ secret` binding as Rust `HashMap::insert` does:
overwrite the value when the key is present, add the binding otherwise. -/
def insertPair (m : List (String × String)) (k v : String) :
    List (String × String) :=
  if m.any (fun p => p.1 = k) then
    m.map (fun p => if p.1 = k then (k, v) else p)
  else m ++ [(k, v)]

/-- The parse error message of `run_automation`. -/
def parseErrMsg : String :=
  "Invalid PPPOE_CREDENTIALS format in .env file. Expected " ++ squote
    ++ "id1:pass1,id2:pass2,..." ++ squote

/-- The credential-parsing loop of `run_automation`: each comma-separated
pair is trimmed and split at the colons; anything but exactly two parts
aborts the whole configuration. -/
def parseAux : List (List Char) → List (String × String) →
    Except String (List (String × String))
  | [], m => .ok m
  | pair :: rest, m =>
    match splitOnChar ':' (trimChars pair) with
    | [k, v] => parseAux rest (insertPair m (String.mk k) (String.mk v))
    | _ => .error parseErrMsg

/-- Parse the embedded `PPPOE_CREDENTIALS` string
(format `id1:pass1,id2:pass2,...`) into the name-to-secret mapping,
materialized as a fixed sequence. -/
def parseCredentials (s : String) : Except String (List (String × String)) :=
  parseAux (splitOnChar ',' s.data) []

/-- The `pppoe_ids: Vec<(String, String)>` materialization of the parsed
mapping. -/
def identitiesOf (pairs : List (String × String)) : List Identity :=
  pairs.map (fun p => ⟨p.1, p.2⟩)

/-- The whole `run_automation` function: parse the credentials, ask the
router for the running identity, then run one decision cycle.  Returns the
propagated `anyhow::Result<()>` together with the collaborator events. -/
def runAutomation (credStr : String) (o : Oracles) :
    Except String Unit × List Event :=
  match parseCredentials credStr with
  | .error e => (.error e, [])
  | .ok pairs =>
    match o.inspect with
    | .error e => (.error e, [])
    | .ok activeName =>
      match runCycle (identitiesOf pairs) sourceThresholds o activeName with
      | (.ok _, evs) => (.ok (), evs)
      | (.error e, evs) => (.error e, evs)

/-- The `main` function: start ChromeDriver, run the automation, propagate
the first error.  The process exits with a non-zero status exactly when
the returned result is an error. -/
def mainResult (chromedriver : Except String Unit) (credStr : String)
    (o : Oracles) : Except String Unit :=
  match chromedriver with
  | .error e => .error e
  | .ok _ => (runAutomation credStr o).1

/-- The candidate sequence in cyclic probe order: the candidates after the
active position, then the ones before it — exactly the positions the
search loop visits, the active position excluded. -/
def rotatedAfter (ids : List Identity) (index : Nat) : List Identity :=
  ids.drop (index + 1) ++ ids.take index

/-- Candidate pool of the spec's Scenario A: `{a:pa, b:pb, c:pc}` in order
`a, b, c`. -/
def idsC5 : List Identity := [⟨"a", "pa"⟩, ⟨"b", "pb"⟩, ⟨"c", "pc"⟩]

/-- Thresholds of the spec's Scenario A: `(9000, 9000, 11000)`. -/
def thC5 : Thresholds := ⟨9000, 9000, 11000⟩

/-- Oracles of the spec's Scenario A: active identity `b`,
`usage(b) = 9500`, `usage(c) = 7000`; probing `a` would error, which makes
any probe of `a` visible. -/
def oC5 : Oracles :=
  ⟨.ok "b",
    fun n _ =>
      if n = "b" then .ok 9500 else if n = "c" then .ok 7000
      else .error "unexpected probe",
    fun _ _ => .okTrue⟩

/-- Single-candidate pool used in the disable-branch scenarios. -/
def idsC7 : List Identity := [⟨"a", "pa"⟩]

/-- A run that reaches the disable branch and whose apply reports
`Ok(false)`. -/
def oC7a : Oracles := ⟨.ok "a", fun _ _ => .ok 20000, fun _ _ => .okFalse⟩

/-- A run that reaches the disable branch and whose apply returns
`Err("boom")`. -/
def oC7b : Oracles := ⟨.ok "a", fun _ _ => .ok 20000, fun _ _ => .err "boom"⟩

/-- A run whose router inspection fails while parsing succeeds and the
usage probe could never fail. -/
def oC8 : Oracles :=
  ⟨.error "router unreachable", fun _ _ => .ok 0, fun _ _ => .okTrue⟩

/-- Witness pool for the cyclic search claims. -/
def idsW1 : List Identity := [⟨"a", "pa"⟩, ⟨"b", "pb"⟩, ⟨"c", "pc"⟩]

/-- Witness oracles: active `b` over threshold, everything else free. -/
def oW1 : Oracles :=
  ⟨.ok "b", fun n _ => if n = "b" then .ok 10500 else .ok 7000,
    fun _ _ => .okTrue⟩

/-- Witness oracles: a single exhausted identity above the disable
threshold. -/
def oW2 : Oracles := ⟨.ok "a", fun _ _ => .ok 12000, fun _ _ => .okTrue⟩

/-- Witness oracles: active identity comfortably below the switch
threshold. -/
def oW3 : Oracles := ⟨.ok "a", fun _ _ => .ok 5, fun _ _ => .okTrue⟩

/-- Witness oracles: the active-identity probe fails. -/
def oW4 : Oracles :=
  ⟨.ok "a", fun _ _ => .error "probe down", fun _ _ => .okTrue⟩

/-- Witness oracles: the router reports an identity outside the pool. -/
def oW6 : Oracles := ⟨.ok "zzz", fun _ _ => .ok 0, fun _ _ => .okTrue⟩

/-- Witness pool for the notification claim. -/
def idsW7 : List Identity := [⟨"a", "pa"⟩, ⟨"b", "pb"⟩]

/-- Witness oracles: active `a` over threshold, `b` available, apply
succeeds. -/
def oW7 : Oracles :=
  ⟨.ok "a", fun n _ => if n = "a" then .ok 10500 else .ok 5000,
    fun _ _ => .okTrue⟩

/-- Witness oracles: a healthy run with the active identity not in the
pool. -/
def oW8 : Oracles := ⟨.ok "zzz", fun _ _ => .ok 0, fun _ _ => .okTrue⟩

lemma findActiveAux_spec (name : String) :
    ∀ (ids : List Identity) (k i : Nat) (c : Identity),
      findActiveAux name ids k = some (i, c) →
      k ≤ i ∧ ids[i - k]? = some c ∧ c.name = name := by
  intro ids
  induction ids with
  | nil => intro k i c h; simp [findActiveAux] at h
  | cons hd tl ih =>
    intro k i c h
    simp only [findActiveAux] at h
    by_cases hh : hd.name = name
    · rw [if_pos hh] at h
      obtain ⟨h1, h2⟩ := Prod.mk.injEq .. ▸ Option.some.inj h
      subst h1; subst h2
      simp [hh]
    · rw [if_neg hh] at h
      obtain ⟨hk, hget, hname⟩ := ih (k + 1) i c h
      refine ⟨by omega, ?_, hname⟩
      have hik : i - k = (i - (k + 1)) + 1 := by omega
      rw [hik, List.getElem?_cons_succ]
      exact hget

lemma findActive_spec (ids : List Identity) (name : String) (i : Nat)
    (c : Identity) (h : findActive ids name = some (i, c)) :
    ids[i]? = some c ∧ c.name = name := by
  obtain ⟨_, hget, hname⟩ := findActiveAux_spec name ids 0 i c h
  simpa using ⟨hget, hname⟩

lemma findActive_lt (ids : List Identity) (name : String) (i : Nat)
    (c : Identity) (h : findActive ids name = some (i, c)) : i < ids.length := by
  obtain ⟨hget, _⟩ := findActive_spec ids name i c h
  exact (List.getElem?_eq_some_iff.1 hget).1

lemma rotatedAfter_length (ids : List Identity) (index : Nat)
    (h : index < ids.length) :
    (rotatedAfter ids index).length = ids.length - 1 := by
  simp only [rotatedAfter, List.length_append, List.length_drop, List.length_take]
  rw [Nat.min_eq_left h.le]
  omega

lemma rotatedAfter_getElem? (ids : List Identity) (index checked : Nat)
    (hidx : index < ids.length) (hc : checked < ids.length - 1) :
    (rotatedAfter ids index)[checked]?
      = ids[(index + 1 + checked) % ids.length]? := by
  have hdl : (ids.drop (index + 1)).length = ids.length - (index + 1) :=
    List.length_drop _ _
  by_cases hlt : index + 1 + checked < ids.length
  · have h1 : checked < (ids.drop (index + 1)).length := by omega
    rw [rotatedAfter, List.getElem?_append_left h1, Nat.mod_eq_of_lt hlt,
      List.getElem?_eq_getElem h1, List.getElem_drop,
      List.getElem?_eq_getElem (by omega : index + 1 + checked < ids.length)]
  · have h1 : (ids.drop (index + 1)).length ≤ checked := by omega
    rw [rotatedAfter, List.getElem?_append_right h1]
    have hmod : (index + 1 + checked) % ids.length
        = index + 1 + checked - ids.length := by
      rw [Nat.mod_eq_sub_mod (by omega)]
      exact Nat.mod_eq_of_lt (by omega)
    rw [hmod, hdl]
    have hpos : checked - (ids.length - (index + 1))
        = index + 1 + checked - ids.length := by omega
    rw [hpos]
    exact List.getElem?_take_of_lt (by omega)

lemma searchLoop_eq_firstFit (ids : List Identity) (avail : Int)
    (probe : String → String → Except String Int) (index : Nat)
    (hidx : index < ids.length) :
    ∀ fuel checked, fuel = ids.length - 1 - checked →
      searchLoop ids avail probe index checked fuel
        = firstFitSearch ((rotatedAfter ids index).drop checked) avail probe := by
  intro fuel
  induction fuel with
  | zero =>
    intro checked hf
    have hlen := rotatedAfter_length ids index hidx
    have hnil : (rotatedAfter ids index).drop checked = [] := by
      rw [List.drop_eq_nil_iff]; omega
    rw [hnil]
    rfl
  | succ fuel ih =>
    intro checked hf
    have hc : checked < ids.length - 1 := by omega
    have hlen := rotatedAfter_length ids index hidx
    have hcb : checked < (rotatedAfter ids index).length := by omega
    have hmodlt : (index + 1 + checked) % ids.length < ids.length :=
      Nat.mod_lt _ (by omega)
    have hdrop := List.drop_eq_getElem_cons hcb
    have hget : (rotatedAfter ids index)[checked]
        = ids.getD ((index + 1 + checked) % ids.length) defaultIdentity := by
      have h1 := rotatedAfter_getElem? ids index checked hidx hc
      rw [List.getElem?_eq_getElem hcb, List.getElem?_eq_getElem hmodlt] at h1
      have h2 : ids.getD ((index + 1 + checked) % ids.length) defaultIdentity
          = ids[(index + 1 + checked) % ids.length] := by
        rw [List.getD_eq_getElem?_getD, List.getElem?_eq_getElem hmodlt]
        rfl
      rw [h2]
      exact Option.some.inj h1
    rw [hdrop, hget]
    simp only [searchLoop, if_pos hc]
    cases hp : probe (ids.getD ((index + 1 + checked) % ids.length)
        defaultIdentity).name
        (ids.getD ((index + 1 + checked) % ids.length) defaultIdentity).secret with
    | ok u =>
      simp only [firstFitSearch, hp]
      by_cases hu : u ≤ avail
      · rw [if_pos hu, if_pos hu]
      · rw [if_neg hu, if_neg hu, ih (checked + 1) (by omega)]
    | error e =>
      simp only [firstFitSearch, hp]
      rw [ih (checked + 1) (by omega)]

lemma searchFrom_eq_firstFit (ids : List Identity) (index : Nat) (avail : Int)
    (probe : String → String → Except String Int)
    (hidx : index < ids.length) :
    searchFrom ids index avail probe 0
      = firstFitSearch (rotatedAfter ids index) avail probe := by
  have h := searchLoop_eq_firstFit ids avail probe index hidx
    (ids.length - 1 - 0) 0 rfl
  simpa [searchFrom] using h

lemma firstFitSearch_probed_take (avail : Int)
    (probe : String → String → Except String Int) :
    ∀ cands : List Identity,
      (firstFitSearch cands avail probe).2
        = cands.take (firstFitSearch cands avail probe).2.length := by
  intro cands
  induction cands with
  | nil => rfl
  | cons c rest ih =>
    simp only [firstFitSearch]
    cases hp : probe c.name c.secret with
    | ok u =>
      by_cases hu : u ≤ avail
      · simp [hu]
      · simp only [if_neg hu, List.length_cons, List.take_succ_cons]
        exact congrArg (c :: ·) ih
    | error e =>
      simp only [List.length_cons, List.take_succ_cons]
      exact congrArg (c :: ·) ih

lemma firstFitSearch_probed_length_le (avail : Int)
    (probe : String → String → Except String Int) :
    ∀ cands : List Identity,
      (firstFitSearch cands avail probe).2.length ≤ cands.length := by
  intro cands
  induction cands with
  | nil => simp [firstFitSearch]
  | cons c rest ih =>
    simp only [firstFitSearch]
    cases hp : probe c.name c.secret with
    | ok u =>
      by_cases hu : u ≤ avail
      · simp [hu]
      · simpa [hu] using ih
    | error e => simpa using ih

lemma firstFitSearch_winner (avail : Int)
    (probe : String → String → Except String Int) (w : Identity) :
    ∀ cands : List Identity,
      (firstFitSearch cands avail probe).1 = some w →
      ∃ pre, (firstFitSearch cands avail probe).2 = pre ++ [w]
        ∧ (∃ u, probe w.name w.secret = .ok u ∧ u ≤ avail)
        ∧ ∀ c ∈ pre, ¬ ∃ u, probe c.name c.secret = .ok u ∧ u ≤ avail := by
  intro cands
  induction cands with
  | nil => intro h; simp [firstFitSearch] at h
  | cons c rest ih =>
    intro h
    cases hp : probe c.name c.secret with
    | ok u =>
      simp only [firstFitSearch, hp] at h ⊢
      by_cases hu : u ≤ avail
      · rw [if_pos hu] at h
        simp only [if_pos hu]
        have hw : c = w := Option.some.inj h
        subst hw
        exact ⟨[], rfl, ⟨u, hp, hu⟩, by simp⟩
      · rw [if_neg hu] at h
        simp only [if_neg hu]
        obtain ⟨pre, h1, h2, h3⟩ := ih h
        refine ⟨c :: pre, by rw [h1]; rfl, h2, ?_⟩
        intro d hd
        rw [List.mem_cons] at hd
        rcases hd with rfl | hd
        · rintro ⟨u', hpu', hu'⟩
          rw [hp] at hpu'
          exact hu (Except.ok.inj hpu' ▸ hu')
        · exact h3 d hd
    | error e =>
      simp only [firstFitSearch, hp] at h ⊢
      obtain ⟨pre, h1, h2, h3⟩ := ih h
      refine ⟨c :: pre, by rw [h1]; rfl, h2, ?_⟩
      intro d hd
      rw [List.mem_cons] at hd
      rcases hd with rfl | hd
      · rintro ⟨u', hpu', _⟩
        rw [hp] at hpu'
        cases hpu'
      · exact h3 d hd

lemma searchLoop_congr_probe (ids : List Identity) (avail : Int)
    (p1 p2 : String → String → Except String Int) (index : Nat)
    (hp : ∀ n s, p1 n s = p2 n s
      ∨ ((∃ e, p1 n s = .error e) ∧ ∃ u, p2 n s = .ok u ∧ avail < u)) :
    ∀ fuel checked,
      searchLoop ids avail p1 index checked fuel
        = searchLoop ids avail p2 index checked fuel := by
  intro fuel
  induction fuel with
  | zero => intro checked; rfl
  | succ fuel ih =>
    intro checked
    by_cases hc : checked < ids.length - 1
    · simp only [searchLoop, if_pos hc]
      rcases hp (ids.getD ((index + 1 + checked) % ids.length)
          defaultIdentity).name
          (ids.getD ((index + 1 + checked) % ids.length) defaultIdentity).secret
        with heq | ⟨⟨e, h1⟩, u, h2, hu⟩
      · rw [heq]
        cases probe2 : p2 (ids.getD ((index + 1 + checked) % ids.length)
            defaultIdentity).name
            (ids.getD ((index + 1 + checked) % ids.length)
              defaultIdentity).secret with
        | ok u =>
          simp only [probe2]
          by_cases hu : u ≤ avail
          · rw [if_pos hu, if_pos hu]
          · rw [if_neg hu, if_neg hu, ih (checked + 1)]
        | error e =>
          simp only [probe2]
          rw [ih (checked + 1)]
      · simp only [h1, h2]
        rw [if_neg (by omega : ¬ u ≤ avail), ih (checked + 1)]
    · simp only [searchLoop, if_neg hc]

lemma searchFrom_congr_probe (ids : List Identity) (index : Nat) (avail : Int)
    (p1 p2 : String → String → Except String Int)
    (hp : ∀ n s, p1 n s = p2 n s
      ∨ ((∃ e, p1 n s = .error e) ∧ ∃ u, p2 n s = .ok u ∧ avail < u)) :
    searchFrom ids index avail p1 0 = searchFrom ids index avail p2 0 :=
  searchLoop_congr_probe ids avail p1 p2 index hp _ 0

lemma active_not_mem_rotatedAfter (ids : List Identity) (index : Nat)
    (active : Identity) (hnd : (ids.map Identity.name).Nodup)
    (hact : ids[index]? = some active) :
    active ∉ rotatedAfter ids index := by
  intro hmem
  obtain ⟨hidx, hgetI⟩ := List.getElem?_eq_some_iff.1 hact
  rw [rotatedAfter, List.mem_append] at hmem
  have hbI : index < (ids.map Identity.name).length := by
    simpa using hidx
  rcases hmem with hd | ht
  · obtain ⟨j, hj, hget⟩ := List.getElem_of_mem hd
    rw [List.getElem_drop] at hget
    have hjb : index + 1 + j < ids.length := by
      have := List.length_drop (index + 1) ids
      omega
    have hbJ : index + 1 + j < (ids.map Identity.name).length := by
      simpa using hjb
    have h1 : (ids.map Identity.name)[index]
        = (ids.map Identity.name)[index + 1 + j] := by
      rw [List.getElem_map, List.getElem_map, hget, hgetI]
    have := (hnd.getElem_inj_iff).1 h1
    omega
  · obtain ⟨j, hj, hget⟩ := List.getElem_of_mem ht
    rw [List.getElem_take] at hget
    have hjlt : j < index := lt_of_lt_of_le hj (by
      rw [List.length_take]; exact min_le_left _ _)
    have hbJ : j < (ids.map Identity.name).length := by
      simp only [List.length_map]; omega
    have h1 : (ids.map Identity.name)[index]
        = (ids.map Identity.name)[j] := by
      rw [List.getElem_map, List.getElem_map, hget, hgetI]
    have := (hnd.getElem_inj_iff).1 h1
    omega

lemma splitOnChar_ne_nil (sep : Char) : ∀ cs : List Char,
    splitOnChar sep cs ≠ [] := by
  intro cs
  induction cs with
  | nil => simp [splitOnChar]
  | cons x xs ih =>
    simp only [splitOnChar]
    by_cases hx : x = sep
    · simp [hx]
    · rw [if_neg hx]
      cases h : splitOnChar sep xs with
      | nil => simp
      | cons y ys => simp

lemma insertPair_length_le (m : List (String × String)) (k v : String) :
    m.length ≤ (insertPair m k v).length := by
  unfold insertPair
  by_cases h : m.any (fun p => p.1 = k)
  · rw [if_pos h, List.length_map]
  · rw [if_neg h, List.length_append]
    simp

lemma insertPair_keys_nodup (m : List (String × String)) (k v : String)
    (h : (m.map Prod.fst).Nodup) :
    ((insertPair m k v).map Prod.fst).Nodup := by
  unfold insertPair
  by_cases hany : m.any (fun p => p.1 = k)
  · rw [if_pos hany]
    have heq : (m.map (fun p => if p.1 = k then (k, v) else p)).map Prod.fst
        = m.map Prod.fst := by
      rw [List.map_map]
      apply List.map_congr_left
      intro p _
      by_cases hp : p.1 = k
      · simp [hp]
      · simp [hp]
    rw [heq]
    exact h
  · rw [if_neg hany, List.map_append]
    rw [List.nodup_append]
    refine ⟨h, List.nodup_singleton k, ?_⟩
    intro a ha hb
    simp only [List.map_cons, List.map_nil, List.mem_singleton] at hb
    subst hb
    obtain ⟨p, hpm, hpk⟩ := List.mem_map.1 ha
    apply hany
    rw [List.any_eq_true]
    exact ⟨p, hpm, by simp [hpk]⟩

lemma parseAux_ok_length : ∀ (pairs : List (List Char))
    (m m' : List (String × String)), parseAux pairs m = .ok m' →
    m.length ≤ m'.length := by
  intro pairs
  induction pairs with
  | nil =>
    intro m m' h
    simp only [parseAux] at h
    rw [Except.ok.inj h]
  | cons p ps ih =>
    intro m m' h
    simp only [parseAux] at h
    cases hs : splitOnChar ':' (trimChars p) with
    | nil => rw [hs] at h; cases h
    | cons k t =>
      cases t with
      | nil => rw [hs] at h; cases h
      | cons v t2 =>
        cases t2 with
        | nil =>
          rw [hs] at h
          exact le_trans (insertPair_length_le m (String.mk k) (String.mk v))
            (ih _ _ h)
        | cons w t3 => rw [hs] at h; cases h

lemma parseAux_ok_keys_nodup : ∀ (pairs : List (List Char))
    (m m' : List (String × String)), (m.map Prod.fst).Nodup →
    parseAux pairs m = .ok m' → (m'.map Prod.fst).Nodup := by
  intro pairs
  induction pairs with
  | nil =>
    intro m m' hnd h
    simp only [parseAux] at h
    rw [← Except.ok.inj h]
    exact hnd
  | cons p ps ih =>
    intro m m' hnd h
    simp only [parseAux] at h
    cases hs : splitOnChar ':' (trimChars p) with
    | nil => rw [hs] at h; cases h
    | cons k t =>
      cases t with
      | nil => rw [hs] at h; cases h
      | cons v t2 =>
        cases t2 with
        | nil =>
          rw [hs] at h
          exact ih _ _
            (insertPair_keys_nodup m (String.mk k) (String.mk v) hnd) h
        | cons w t3 => rw [hs] at h; cases h

lemma parseCredentials_ok_length_pos (s : String)
    (m : List (String × String)) (h : parseCredentials s = .ok m) :
    1 ≤ m.length := by
  unfold parseCredentials at h
  cases hsp : splitOnChar ',' s.data with
  | nil => exact absurd hsp (splitOnChar_ne_nil ',' s.data)
  | cons p ps =>
    rw [hsp] at h
    simp only [parseAux] at h
    cases hs : splitOnChar ':' (trimChars p) with
    | nil => rw [hs] at h; cases h
    | cons k t =>
      cases t with
      | nil => rw [hs] at h; cases h
      | cons v t2 =>
        cases t2 with
        | nil =>
          rw [hs] at h
          have hlen := parseAux_ok_length ps _ _ h
          have : 1 ≤ (insertPair [] (String.mk k) (String.mk v)).length := by
            simp [insertPair]
          omega
        | cons w t3 => rw [hs] at h; cases h

lemma parseCredentials_ok_keys_nodup (s : String)
    (m : List (String × String)) (h : parseCredentials s = .ok m) :
    (m.map Prod.fst).Nodup := by
  unfold parseCredentials at h
  exact parseAux_ok_keys_nodup _ [] m (by simp) h

lemma runCycle_error_of_probe_error (ids : List Identity) (th : Thresholds)
    (o : Oracles) (activeName : String) (index : Nat) (active : Identity)
    (e : String) (hfind : findActive ids activeName = some (index, active))
    (hprobe : o.probe active.name active.secret = .error e) :
    runCycle ids th o activeName
      = (.error e, [Event.probeCall active.name active.secret]) := by
  simp only [runCycle, hfind, hprobe]

lemma runCycle_ok_of_probe_ok (ids : List Identity) (th : Thresholds)
    (o : Oracles) (activeName : String) (index : Nat) (active : Identity)
    (usage : Int) (hfind : findActive ids activeName = some (index, active))
    (hprobe : o.probe active.name active.secret = .ok usage) :
    ∃ d, (runCycle ids th o activeName).1 = .ok d := by
  simp only [runCycle, hfind, hprobe]
  by_cases hs : usage > th.switch_threshold
  · rw [if_pos hs]
    cases hw : (searchFrom ids index th.available_threshold o.probe 0).1 with
    | some w =>
      simp only [hw]
      cases ha : o.apply w.name w.secret <;> simp [ha]
    | none =>
      simp only [hw]
      by_cases hd : usage > th.disable_threshold
      · rw [if_pos hd]
        cases ha : o.apply active.name sentinelSecret <;> simp [ha]
      · rw [if_neg hd]
        exact ⟨_, rfl⟩
  · rw [if_neg hs]
    exact ⟨_, rfl⟩

/-- C3: when the active identity is found in the candidate sequence and
its probed usage is at or below the switch threshold, the cycle decides
NoAction, emits exactly one "status OK" notification naming the current
identity and its usage, and issues no probe beyond the active one. -/
theorem below_threshold_no_action (ids : List Identity) (th : Thresholds)
    (o : Oracles) (activeName : String) (index : Nat) (active : Identity)
    (usage : Int) (hfind : findActive ids activeName = some (index, active))
    (hprobe : o.probe active.name active.secret = .ok usage)
    (hle : usage ≤ th.switch_threshold) :
    runCycle ids th o activeName
      = (.ok (some .NoAction),
        [Event.probeCall active.name active.secret,
          Event.notify "WiFi Status OK ✓" (statusOkBody active.name usage)]) := by
  simp only [runCycle, hfind, hprobe]
  rw [if_neg (by omega : ¬ usage > th.switch_threshold)]

/-- C3 witness: a concrete below-threshold run. -/
theorem below_threshold_no_action_witness :
    runCycle [⟨"a", "pa"⟩] sourceThresholds oW3 "a"
      = (.ok (some .NoAction),
        [Event.probeCall "a" "pa",
          Event.notify "WiFi Status OK ✓" (statusOkBody "a" 5)]) :=
  below_threshold_no_action [⟨"a", "pa"⟩] sourceThresholds oW3 "a" 0
    ⟨"a", "pa"⟩ 5 rfl rfl (by decide)

/-- C4: probe errors are asymmetric.  An error probing the active identity
aborts the cycle: the run result is that error and the only event is the
failed probe call (no decision, no notification).  An error probing a
secondary candidate is equivalent to that candidate reporting usage above
the availability threshold: the search result is unchanged if every
erroring probe is replaced by an over-threshold reading.  And whenever the
active probe succeeds the cycle never aborts, whatever the secondary
probes do. -/
theorem probe_error_asymmetry :
    (∀ (ids : List Identity) (th : Thresholds) (o : Oracles)
        (activeName : String) (index : Nat) (active : Identity) (e : String),
      findActive ids activeName = some (index, active) →
      o.probe active.name active.secret = .error e →
      runCycle ids th o activeName
        = (.error e, [Event.probeCall active.name active.secret]))
    ∧ (∀ (ids : List Identity) (index : Nat) (avail : Int)
        (p1 p2 : String → String → Except String Int),
      (∀ n s, p1 n s = p2 n s
        ∨ ((∃ e, p1 n s = .error e) ∧ ∃ u, p2 n s = .ok u ∧ avail < u)) →
      searchFrom ids index avail p1 0 = searchFrom ids index avail p2 0)
    ∧ (∀ (ids : List Identity) (th : Thresholds) (o : Oracles)
        (activeName : String) (index : Nat) (active : Identity) (usage : Int),
      findActive ids activeName = some (index, active) →
      o.probe active.name active.secret = .ok usage →
      ∃ d, (runCycle ids th o activeName).1 = .ok d) := by
  refine ⟨?_, ?_, ?_⟩
  · intro ids th o activeName index active e hfind hprobe
    exact runCycle_error_of_probe_error ids th o activeName index active e
      hfind hprobe
  · intro ids index avail p1 p2 hp
    exact searchFrom_congr_probe ids index avail p1 p2 hp
  · intro ids th o activeName index active usage hfind hprobe
    exact runCycle_ok_of_probe_ok ids th o activeName index active usage
      hfind hprobe

/-- C4 witness: a concrete run whose active probe fails. -/
theorem probe_error_asymmetry_witness :
    runCycle [⟨"a", "pa"⟩] sourceThresholds oW4 "a"
      = (.error "probe down", [Event.probeCall "a" "pa"]) :=
  probe_error_asymmetry.1 [⟨"a", "pa"⟩] sourceThresholds oW4 "a" 0
    ⟨"a", "pa"⟩ "probe down" rfl rfl

/-- C5: Scenario A — candidates `a, b, c`, active `b`, thresholds
`(9000, 9000, 11000)`, `usage(b) = 9500`, `usage(c) = 7000`: the engine
decides SwitchTo(c) and never probes `a`. -/
theorem scenario_a_first_fit :
    (runCycle idsC5 thC5 oC5 "b").1 = .ok (some (.SwitchTo ⟨"c", "pc"⟩))
    ∧ Event.probeCall "a" "pa" ∉ (runCycle idsC5 thC5 oC5 "b").2 := by
  constructor
  · rfl
  · decide

/-- C6: when the identity reported by the router matches no candidate, the
run is a no-op: no probe, no apply, no notification, and the run completes
without error. -/
theorem active_not_in_pool_noop (credStr : String) (o : Oracles)
    (pairs : List (String × String)) (activeName : String)
    (hparse : parseCredentials credStr = .ok pairs)
    (hinspect : o.inspect = .ok activeName)
    (hfind : findActive (identitiesOf pairs) activeName = none) :
    runAutomation credStr o = (.ok (), []) := by
  simp only [runAutomation, hparse, hinspect, runCycle, hfind]

/-- C6 witness: a pool `{a}` with the router reporting `zzz`. -/
theorem active_not_in_pool_noop_witness :
    runAutomation "a:pa" oW6 = (.ok (), []) :=
  active_not_in_pool_noop "a:pa" oW6 [("a", "pa")] "zzz" rfl rfl rfl

/-- C1: when the active identity is over the switch threshold, the
replacement search is the first-fit scan of the candidates in cyclic order
starting immediately after the active position and wrapping around
(`rotatedAfter`); the probed candidates form an initial segment of that
order; at most `len - 1` candidates are probed; the active identity itself
is never probed (names being pairwise distinct); and when a winner exists
the decision is SwitchTo of the first qualifying candidate, every earlier
probed candidate failing to qualify and nothing being probed after the
winner. -/
theorem cyclic_first_fit_search (ids : List Identity) (th : Thresholds)
    (o : Oracles) (activeName : String) (index : Nat) (active : Identity)
    (usage : Int) (hfind : findActive ids activeName = some (index, active))
    (hprobe : o.probe active.name active.secret = .ok usage)
    (hswitch : usage > th.switch_threshold) :
    searchFrom ids index th.available_threshold o.probe 0
        = firstFitSearch (rotatedAfter ids index) th.available_threshold o.probe
      ∧ (searchFrom ids index th.available_threshold o.probe 0).2
          = (rotatedAfter ids index).take
            (searchFrom ids index th.available_threshold o.probe 0).2.length
      ∧ (searchFrom ids index th.available_threshold o.probe 0).2.length
          ≤ ids.length - 1
      ∧ ((ids.map Identity.name).Nodup →
          active ∉ (searchFrom ids index th.available_threshold o.probe 0).2)
      ∧ ∀ w, (searchFrom ids index th.available_threshold o.probe 0).1 = some w →
          (runCycle ids th o activeName).1 = .ok (some (.SwitchTo w))
          ∧ ∃ pre, (searchFrom ids index th.available_threshold o.probe 0).2
              = pre ++ [w]
            ∧ (∃ u, o.probe w.name w.secret = .ok u
                ∧ u ≤ th.available_threshold)
            ∧ ∀ c ∈ pre, ¬ ∃ u, o.probe c.name c.secret = .ok u
                ∧ u ≤ th.available_threshold := by
  have hidx := findActive_lt ids activeName index active hfind
  have heq := searchFrom_eq_firstFit ids index th.available_threshold
    o.probe hidx
  refine ⟨heq, ?_, ?_, ?_, ?_⟩
  · rw [heq]
    exact firstFitSearch_probed_take th.available_threshold o.probe
      (rotatedAfter ids index)
  · rw [heq]
    calc (firstFitSearch (rotatedAfter ids index) th.available_threshold
          o.probe).2.length
        ≤ (rotatedAfter ids index).length :=
          firstFitSearch_probed_length_le th.available_threshold o.probe
            (rotatedAfter ids index)
      _ = ids.length - 1 := rotatedAfter_length ids index hidx
  · intro hnd hmem
    have hact : ids[index]? = some active :=
      (findActive_spec ids activeName index active hfind).1
    apply active_not_mem_rotatedAfter ids index active hnd hact
    rw [heq, firstFitSearch_probed_take] at hmem
    exact List.mem_of_mem_take hmem
  · intro w hw
    constructor
    · simp only [runCycle, hfind, hprobe]
      rw [if_pos hswitch]
      simp only [hw]
      cases ha : o.apply w.name w.secret <;> simp [ha]
    · rw [heq] at hw ⊢
      exact firstFitSearch_winner th.available_threshold o.probe w
        (rotatedAfter ids index) hw

/-- C1 witness: in the three-candidate witness pool with active `b`, the
search probes at most two candidates. -/
theorem cyclic_first_fit_search_witness :
    (searchFrom idsW1 1 sourceThresholds.available_threshold oW1.probe
      0).2.length ≤ idsW1.length - 1 :=
  (cyclic_first_fit_search idsW1 sourceThresholds oW1 "b" 1 ⟨"b", "pb"⟩
    10500 rfl rfl (by decide)).2.2.1

/-- C2: when the active identity is over the switch threshold and the
whole cyclic scan finds no qualifying candidate: if the active usage also
exceeds the disable threshold, the decision is Disable(active) and the
switcher is invoked with the active name and the sentinel secret
`DISABLED_EXCEEDED_LIMIT`; otherwise the decision is NoIdentityAvailable,
the "no identity available" notification is sent, and no apply call is
made at all. -/
theorem exhausted_pool_decision (ids : List Identity) (th : Thresholds)
    (o : Oracles) (activeName : String) (index : Nat) (active : Identity)
    (usage : Int) (hfind : findActive ids activeName = some (index, active))
    (hprobe : o.probe active.name active.secret = .ok usage)
    (hswitch : usage > th.switch_threshold)
    (hnone : (searchFrom ids index th.available_threshold o.probe 0).1 = none) :
    sentinelSecret = "DISABLED_EXCEEDED_LIMIT"
    ∧ (usage > th.disable_threshold →
        (runCycle ids th o activeName).1 = .ok (some (.Disable active))
        ∧ Event.applyCall active.name sentinelSecret
            ∈ (runCycle ids th o activeName).2)
    ∧ (usage ≤ th.disable_threshold →
        (runCycle ids th o activeName).1 = .ok (some .NoIdentityAvailable)
        ∧ Event.notify "No WiFi IDs Available ⚠"
            (noAvailableBody th active.name usage)
            ∈ (runCycle ids th o activeName).2
        ∧ ∀ n s, Event.applyCall n s ∉ (runCycle ids th o activeName).2) := by
  refine ⟨rfl, ?_, ?_⟩
  · intro hdis
    simp only [runCycle, hfind, hprobe]
    rw [if_pos hswitch]
    simp only [hnone]
    rw [if_pos hdis]
    cases ha : o.apply active.name sentinelSecret <;> simp [ha]
  · intro hdisLe
    simp only [runCycle, hfind, hprobe]
    rw [if_pos hswitch]
    simp only [hnone]
    rw [if_neg (by omega : ¬ usage > th.disable_threshold)]
    refine ⟨rfl, by simp, ?_⟩
    intro n s hmem
    simp at hmem

/-- C2 witness: a single exhausted identity above the disable threshold is
disabled. -/
theorem exhausted_pool_decision_witness :
    (runCycle [⟨"a", "pa"⟩] sourceThresholds oW2 "a").1
      = .ok (some (.Disable ⟨"a", "pa"⟩)) :=
  ((exhausted_pool_decision [⟨"a", "pa"⟩] sourceThresholds oW2 "a" 0
    ⟨"a", "pa"⟩ 12000 rfl rfl (by decide) rfl).2.1 (by decide)).1

/-- C7 counterexample: two disable runs that differ only in the failure
kind of the apply operation — explicit rejection `Ok(false)` versus
propagated error `Err` — produce the identical event trace, so the two
disable failure kinds do not get distinct notifications. -/
theorem disable_failure_notifications_identical :
    (runCycle idsC7 sourceThresholds oC7a "a").1
        = .ok (some (.Disable ⟨"a", "pa"⟩))
    ∧ (runCycle idsC7 sourceThresholds oC7b "a").1
        = .ok (some (.Disable ⟨"a", "pa"⟩))
    ∧ oC7a.apply "a" sentinelSecret = .okFalse
    ∧ oC7b.apply "a" sentinelSecret = .err "boom"
    ∧ (runCycle idsC7 sourceThresholds oC7a "a").2
        = (runCycle idsC7 sourceThresholds oC7b "a").2 :=
  ⟨rfl, rfl, rfl, rfl, rfl⟩

/-- C7 amended: every failure is surfaced through a notification.  The
switch operation's three outcomes produce three pairwise distinct
notifications; the disable operation distinguishes success from failure,
but its two failure outcomes (explicit rejection and propagated error)
share the single "Failed to Disable" notification; the exhausted-pool
state is also notified. -/
theorem failure_notification_branches (ids : List Identity) (th : Thresholds)
    (o : Oracles) (activeName : String) (index : Nat) (active : Identity)
    (usage : Int) (hfind : findActive ids activeName = some (index, active))
    (hprobe : o.probe active.name active.secret = .ok usage)
    (hswitch : usage > th.switch_threshold) :
    (∀ w, (searchFrom ids index th.available_threshold o.probe 0).1 = some w →
      (o.apply w.name w.secret = .okTrue →
        Event.notify "WiFi ID Switched ✓"
          (switchedOkBody active.name w.name usage)
          ∈ (runCycle ids th o activeName).2)
      ∧ (o.apply w.name w.secret = .okFalse →
        Event.notify "WiFi Switch Failed ✗"
          (switchedFailBody active.name w.name)
          ∈ (runCycle ids th o activeName).2)
      ∧ (∀ m, o.apply w.name w.secret = .err m →
        Event.notify "WiFi Switch Error" (switchErrBody m)
          ∈ (runCycle ids th o activeName).2))
    ∧ ((searchFrom ids index th.available_threshold o.probe 0).1 = none →
        usage > th.disable_threshold →
        (o.apply active.name sentinelSecret = .okTrue →
          Event.notify "PPPoE Connection Disabled 🛑"
            (disabledOkBody th active.name usage)
            ∈ (runCycle ids th o activeName).2)
        ∧ (o.apply active.name sentinelSecret ≠ .okTrue →
          Event.notify "Failed to Disable PPPoE ✗" (disableFailBody usage)
            ∈ (runCycle ids th o activeName).2))
    ∧ ((searchFrom ids index th.available_threshold o.probe 0).1 = none →
        usage ≤ th.disable_threshold →
        Event.notify "No WiFi IDs Available ⚠"
          (noAvailableBody th active.name usage)
          ∈ (runCycle ids th o activeName).2)
    ∧ ("WiFi ID Switched ✓" ≠ "WiFi Switch Failed ✗"
        ∧ "WiFi ID Switched ✓" ≠ "WiFi Switch Error"
        ∧ "WiFi Switch Failed ✗" ≠ "WiFi Switch Error"
        ∧ "PPPoE Connection Disabled 🛑" ≠ "Failed to Disable PPPoE ✗") := by
  refine ⟨?_, ?_, ?_, by decide, by decide, by decide, by decide⟩
  · intro w hw
    refine ⟨?_, ?_, ?_⟩
    · intro ha
      simp only [runCycle, hfind, hprobe]
      rw [if_pos hswitch]
      simp only [hw, ha]
      simp
    · intro ha
      simp only [runCycle, hfind, hprobe]
      rw [if_pos hswitch]
      simp only [hw, ha]
      simp
    · intro m ha
      simp only [runCycle, hfind, hprobe]
      rw [if_pos hswitch]
      simp only [hw, ha]
      simp
  · intro hnone hdis
    refine ⟨?_, ?_⟩
    · intro ha
      simp only [runCycle, hfind, hprobe]
      rw [if_pos hswitch]
      simp only [hnone]
      rw [if_pos hdis]
      simp only [ha]
      simp
    · intro ha
      simp only [runCycle, hfind, hprobe]
      rw [if_pos hswitch]
      simp only [hnone]
      rw [if_pos hdis]
      cases hap : o.apply active.name sentinelSecret with
      | okTrue => exact absurd hap ha
      | okFalse => simp
      | err m => simp
  · intro hnone hdisLe
    simp only [runCycle, hfind, hprobe]
    rw [if_pos hswitch]
    simp only [hnone]
    rw [if_neg (by omega : ¬ usage > th.disable_threshold)]
    simp

/-- C7 amended witness: a successful switch emits the "switched"
notification. -/
theorem failure_notification_branches_witness :
    Event.notify "WiFi ID Switched ✓" (switchedOkBody "a" "b" 10500)
      ∈ (runCycle idsW7 sourceThresholds oW7 "a").2 :=
  ((failure_notification_branches idsW7 sourceThresholds oW7 "a" 0
    ⟨"a", "pa"⟩ 10500 rfl rfl (by decide)).1 ⟨"b", "pb"⟩ rfl).1 rfl

/-- C8 counterexample: a run in which configuration parsing succeeds and
no usage probe is ever attempted (the event trace is empty) still exits
with a non-zero status, because the router inspection fails. -/
theorem exit_nonzero_without_probe_or_parse_failure :
    mainResult (.ok ()) "a:pa" oC8 = .error "router unreachable"
    ∧ parseCredentials "a:pa" = .ok [("a", "pa")]
    ∧ (runAutomation "a:pa" oC8).2 = [] :=
  ⟨rfl, rfl, rfl⟩

/-- C8 amended: given that ChromeDriver starts, the process exits with a
non-zero status exactly when configuration parsing fails, or the
active-identity inspection fails, or the active identity is found in the
pool and its usage probe fails; it exits zero otherwise, regardless of the
decision taken and of any switch or disable apply failure. -/
theorem exit_status_characterization (cd : Except String Unit)
    (credStr : String) (o : Oracles) (hcd : cd = .ok ()) :
    (∃ e, mainResult cd credStr o = .error e)
      ↔ ((∃ e, parseCredentials credStr = .error e)
        ∨ (∃ pairs e, parseCredentials credStr = .ok pairs
            ∧ o.inspect = .error e)
        ∨ (∃ pairs name index active e,
            parseCredentials credStr = .ok pairs
            ∧ o.inspect = .ok name
            ∧ findActive (identitiesOf pairs) name = some (index, active)
            ∧ o.probe active.name active.secret = .error e)) := by
  subst hcd
  simp only [mainResult]
  cases hparse : parseCredentials credStr with
  | error e =>
    simp only [runAutomation, hparse]
    constructor
    · intro _
      exact Or.inl ⟨e, rfl⟩
    · intro _
      exact ⟨e, rfl⟩
  | ok pairs =>
    cases hins : o.inspect with
    | error e =>
      simp only [runAutomation, hparse, hins]
      constructor
      · intro _
        exact Or.inr (Or.inl ⟨pairs, e, rfl, rfl⟩)
      · intro _
        exact ⟨e, rfl⟩
    | ok name =>
      simp only [runAutomation, hparse, hins]
      cases hfind : findActive (identitiesOf pairs) name with
      | none =>
        simp only [runCycle, hfind]
        constructor
        · rintro ⟨e, he⟩
          cases he
        · rintro (⟨e, he⟩ | ⟨p2, e, _, hi⟩
            | ⟨p2, n2, i2, a2, e, hp2, hi2, hf2, hpe⟩)
          · cases he
          · cases hi
          · obtain rfl : pairs = p2 := Except.ok.inj hp2
            obtain rfl : name = n2 := Except.ok.inj hi2
            rw [hfind] at hf2
            cases hf2
      | some ia =>
        obtain ⟨i, a⟩ := ia
        cases hpr : o.probe a.name a.secret with
        | error e =>
          have hrc := runCycle_error_of_probe_error (identitiesOf pairs)
            sourceThresholds o name i a e hfind hpr
          rw [hrc]
          constructor
          · intro _
            exact Or.inr (Or.inr ⟨pairs, name, i, a, e, rfl, rfl, hfind, hpr⟩)
          · intro _
            exact ⟨e, rfl⟩
        | ok usage =>
          obtain ⟨d, hd⟩ := runCycle_ok_of_probe_ok (identitiesOf pairs)
            sourceThresholds o name i a usage hfind hpr
          rcases hrc : runCycle (identitiesOf pairs) sourceThresholds o name
            with ⟨r, evs⟩
          rw [hrc] at hd
          simp only at hd
          subst hd
          simp only [hrc]
          constructor
          · rintro ⟨e, he⟩
            cases he
          · rintro (⟨e, he⟩ | ⟨p2, e, _, hi⟩
              | ⟨p2, n2, i2, a2, e, hp2, hi2, hf2, hpe⟩)
            · cases he
            · cases hi
            · obtain rfl : pairs = p2 := Except.ok.inj hp2
              obtain rfl : name = n2 := Except.ok.inj hi2
              rw [hfind] at hf2
              have heq := Option.some.inj hf2
              injection heq with h1 h2
              subst h1
              subst h2
              rw [hpr] at hpe
              cases hpe

/-- C8 amended witness: a healthy run exits zero — neither side of the
characterization holds. -/
theorem exit_status_characterization_witness :
    (∃ e, mainResult (.ok ()) "a:pa" oW8 = .error e)
      ↔ ((∃ e, parseCredentials "a:pa" = .error e)
        ∨ (∃ pairs e, parseCredentials "a:pa" = .ok pairs
            ∧ oW8.inspect = .error e)
        ∨ (∃ pairs name index active e,
            parseCredentials "a:pa" = .ok pairs
            ∧ oW8.inspect = .ok name
            ∧ findActive (identitiesOf pairs) name = some (index, active)
            ∧ oW8.probe active.name active.secret = .error e)) :=
  exit_status_characterization (.ok ()) "a:pa" oW8 rfl

/-- C9: duplicate identity names in the credential string do not fail
parsing; the later pair's secret overwrites the earlier one, and every
successfully parsed candidate sequence has pairwise distinct names. -/
theorem duplicate_names_last_wins :
    parseCredentials "a:p1,b:pb,a:p2" = .ok [("a", "p2"), ("b", "pb")]
    ∧ ∀ s m, parseCredentials s = .ok m → (m.map Prod.fst).Nodup := by
  constructor
  · rfl
  · intro s m h
    exact parseCredentials_ok_keys_nodup s m h

/-- C9 witness: the names of the concretely parsed duplicate-name
configuration are pairwise distinct. -/
theorem duplicate_names_last_wins_witness :
    (([("a", "p2"), ("b", "pb")] : List (String × String)).map
      Prod.fst).Nodup :=
  duplicate_names_last_wins.2 "a:p1,b:pb,a:p2" _ duplicate_names_last_wins.1

/-- C10: a successfully parsed candidate sequence is never empty (so
`len - 1` never underflows and `% len` never divides by zero); the empty
and the all-whitespace credential strings are rejected; with a single
candidate the search loop runs zero iterations and the cycle falls
directly to the exhausted-pool branch. -/
theorem parse_nonempty_and_singleton_search :
    (∀ s m, parseCredentials s = .ok m → 1 ≤ (identitiesOf m).length)
    ∧ (∃ e, parseCredentials "" = .error e)
    ∧ (∃ e, parseCredentials "   " = .error e)
    ∧ (∀ (c : Identity) (index : Nat) (avail : Int)
        (probe : String → String → Except String Int),
        searchFrom [c] index avail probe 0 = (none, []))
    ∧ (∀ (th : Thresholds) (o : Oracles) (name : String) (c : Identity)
        (usage : Int), findActive [c] name = some (0, c) →
        o.probe c.name c.secret = .ok usage → usage > th.switch_threshold →
        (runCycle [c] th o name).1 = .ok (some (.Disable c))
        ∨ (runCycle [c] th o name).1 = .ok (some .NoIdentityAvailable)) := by
  refine ⟨?_, ⟨parseErrMsg, rfl⟩, ⟨parseErrMsg, rfl⟩, ?_, ?_⟩
  · intro s m h
    have := parseCredentials_ok_length_pos s m h
    simpa [identitiesOf] using this
  · intro c index avail probe
    rfl
  · intro th o name c usage hfind hprobe hswitch
    simp only [runCycle, hfind, hprobe]
    rw [if_pos hswitch]
    have hs : searchFrom [c] 0 th.available_threshold o.probe 0
        = (none, []) := rfl
    simp only [hs]
    by_cases hd : usage > th.disable_threshold
    · rw [if_pos hd]
      cases ha : o.apply c.name sentinelSecret <;> simp [ha]
    · rw [if_neg hd]
      right
      rfl

/-- C10 witness: the singleton configuration parses to a sequence of
length one. -/
theorem parse_nonempty_and_singleton_search_witness :
    1 ≤ (identitiesOf [("a", "pa")]).length :=
  parse_nonempty_and_singleton_search.1 "a:pa" [("a", "pa")] rfl

end Pppoe
